import Mathlib

/-!
Verification of the synthetic usage-data generator in `setup_project.py`.

The generator is a straight-line randomized program.  We embed it shallowly:
the process-wide pseudo-random source (`random.randint`, `random.random`,
`random.uniform`, `random.choice`, `random.choices`) is modelled by a stream
of natural numbers together with a cursor; each primitive consumes one stream
element and maps it into its documented range (`randint a b` lands in
`[a, b]`, CPython's `random()` returns `k / 2^53` for some `k < 2^53`, and
`uniform a b = a + (b - a) * random()`).  Python floats are modelled by exact
rationals; Python's two-argument `round` (round-half-to-even) becomes
`pyRound` on `ℚ`.  `datetime` values are modelled as integer seconds;
`datetime.now()` is an explicit parameter `now`.
-/

namespace SetupProject

/-- The pseudo-random source: an arbitrary stream of naturals and a cursor.
Every primitive draw reads `seq idx` and advances the cursor, so a run of the
program is a pure function of the stream and the clock. -/
structure RandGen where
  seq : Nat → Nat
  idx : Nat

/-- Read one raw value from the stream and advance the cursor. -/
def rawDraw (g : RandGen) : Nat × RandGen :=
  (g.seq g.idx, ⟨g.seq, g.idx + 1⟩)

/-- `random.randint(a, b)`: a draw mapped into the inclusive range `[a, b]`. -/
def randint (a b : Nat) (g : RandGen) : Nat × RandGen :=
  let (n, g') := rawDraw g
  (a + n % (b + 1 - a), g')

/-- The value CPython's `random.random()` produces from 53 random bits `k`:
the rational `(k mod 2^53) / 2^53`, always in `[0, 1)`. -/
def unitFrac (k : Nat) : ℚ :=
  (((k % 2 ^ 53 : ℕ) : ℤ) : ℚ) / (2 ^ 53 : ℚ)

/-- CPython's `random.random()` returns `k / 2^53` with `0 ≤ k < 2^53`;
we model it exactly, reading `k` from the stream. -/
def randomUnit (g : RandGen) : ℚ × RandGen :=
  let (n, g') := rawDraw g
  (unitFrac n, g')

/-- `random.uniform(a, b) = a + (b - a) * random()`. -/
def uniform (a b : ℚ) (g : RandGen) : ℚ × RandGen :=
  let (u, g') := randomUnit g
  (a + (b - a) * u, g')

/-- `random.choice(xs)`: a draw mapped into an index of `xs`.  All call sites
in the program pass non-empty literal lists. -/
def choice {α : Type} (xs : List α) (d : α) (g : RandGen) : α × RandGen :=
  let (n, g') := rawDraw g
  (xs.getD (n % xs.length) d, g')

/-- `random.choices(range(24), weights=...)[0]`: the weighted hour-of-day
draw.  All 24 weights are positive, so every hour in `[0, 23]` is a possible
outcome; the weights only shape the distribution, which no property depends
on, so we model the draw as an arbitrary stream value mapped into `[0, 23]`. -/
def choicesHour (g : RandGen) : Nat × RandGen :=
  let (n, g') := rawDraw g
  (n % 24, g')

/-- Python's built-in `round` to the nearest integer, rounding halves to the
nearest even integer (banker's rounding), on exact rationals.  `Rat.floor`
is the executable floor; it agrees with `⌊·⌋` (`ratFloor_eq` below). -/
def pyRound (q : ℚ) : ℤ :=
  if q - (Rat.floor q : ℚ) < 1 / 2 then Rat.floor q
  else if q - (Rat.floor q : ℚ) > 1 / 2 then Rat.floor q + 1
  else if Rat.floor q % 2 = 0 then Rat.floor q
  else Rat.floor q + 1

/-- Python's `round(x, 2)`: round to two decimal places. -/
def round2 (q : ℚ) : ℚ :=
  ((pyRound (q * 100) : ℤ) : ℚ) / 100

/-- One provider entry of the fixed four-provider catalog. -/
structure ProviderInfo where
  models : List String
  cost_input : ℚ
  cost_output : ℚ
  energy_factor : ℚ
deriving DecidableEq

/-- The fixed provider catalog `providers_data`, in dict insertion order. -/
def providers_data : List (String × ProviderInfo) :=
  [("OpenAI",
    ⟨["gpt-4", "gpt-4-turbo", "gpt-3.5-turbo", "gpt-3.5-turbo-16k"],
     1 / 100000, 3 / 100000, 1⟩),
   ("Anthropic",
    ⟨["claude-3-opus", "claude-3-sonnet", "claude-3-haiku", "claude-instant"],
     15 / 1000000, 75 / 1000000, 6 / 5⟩),
   ("Google",
    ⟨["gemini-pro", "gemini-pro-vision", "palm-2", "codey"],
     125 / 10000000, 375 / 10000000, 4 / 5⟩),
   ("Cohere",
    ⟨["command", "command-light", "embed-english", "embed-multilingual"],
     1 / 1000000, 2 / 1000000, 3 / 5⟩)]

/-- One generated usage record; `timestamp` is in integer seconds. -/
structure Record where
  provider_name : String
  model_name : String
  input_tokens : Nat
  output_tokens : Nat
  response_time : ℚ
  timestamp : ℤ
deriving DecidableEq

/-- Default used for `List.getD`; never reached at the call sites that matter. -/
def defaultRecord : Record :=
  ⟨"", "", 0, 0, 0, 0⟩

/-- The model list of the provider named `name` in the catalog ( `[]` if the
name is not in the catalog). -/
def providerModels (name : String) : List String :=
  (((providers_data.find? (fun p => p.1 == name)).map (fun p => p.2.models)).getD [])

/-- The catalog invariant for one record: its `model_name` is an element of
the model list of the provider named by its `provider_name`. -/
def catalogOK (r : Record) : Bool :=
  (providerModels r.provider_name).contains r.model_name

/-- The (input, output) token unit costs of the provider named `name` in the
catalog ((0, 0) if the name is not in the catalog). -/
def providerCosts (name : String) : ℚ × ℚ :=
  (((providers_data.find? (fun p => p.1 == name)).map
    (fun p => (p.2.cost_input, p.2.cost_output))).getD (0, 0))

/-- Does the first character list lead the second (prefix test on chars)? -/
def leadsWith : List Char → List Char → Bool
  | [], _ => true
  | _ :: _, [] => false
  | c :: cs, d :: ds => c == d && leadsWith cs ds

/-- Does `needle` occur as a contiguous run inside the character list? -/
def subOccurs (needle : List Char) : List Char → Bool
  | [] => needle.isEmpty
  | c :: cs => leadsWith needle (c :: cs) || subOccurs needle cs

/-- Python's substring test `needle in s` for the two heavy-model checks. -/
def containsSub (s needle : String) : Bool :=
  subOccurs needle.data s.data

/-- `'gpt-4' in model or 'claude-3-opus' in model`. -/
def isHeavyModel (model : String) : Bool :=
  containsSub model "gpt-4" || containsSub model "claude-3-opus"

/-- Seconds in a day. -/
def daySecs : ℤ := 86400

/-- The midnight (start of day) of the calendar day `dayIdx` days after
`now - 30 days`; `current_date.replace(hour=h, minute=m, second=s)` keeps the
date part of `current_date` and replaces the time of day. -/
def dayStart (now : ℤ) (dayIdx : Nat) : ℤ :=
  let cd := now - 30 * daySecs + (dayIdx : ℤ) * daySecs
  cd - cd % daySecs

/-- The model-dependent response-time multiplier: `uniform(1.5, 2.5)` for a
heavy model, else `uniform(0.8, 1.2)`.  Both branches consume exactly one
draw, so the advanced generator is the same in both and the branch is taken
on the value only. -/
def multDraw (model : String) (g : RandGen) : ℚ × RandGen :=
  ((if isHeavyModel model then (uniform (3 / 2) (5 / 2) g).1
    else (uniform (4 / 5) (6 / 5) g).1),
   (uniform (4 / 5) (6 / 5) g).2)

/-- The loop body of `generate_sample_data`: one synthetic API call on the
day starting at `ds`.  Draws, in program order: hour (weighted), minute,
second, provider, model, input tokens, output tokens, base response time, and
the model-dependent multiplier. -/
def mkBaseRecord (ds : ℤ) (g : RandGen) : Record × RandGen :=
  let (hour, g) := choicesHour g
  let (minute, g) := randint 0 59 g
  let (second, g) := randint 0 59 g
  let ts := ds + (hour : ℤ) * 3600 + (minute : ℤ) * 60 + (second : ℤ)
  let (provider, g) := choice (providers_data.map (fun p => p.1)) "" g
  let (model, g) := choice (providerModels provider) "" g
  let (input_tokens, g) := randint 50 2000 g
  let (output_tokens, g) := randint 20 800 g
  let (base_rt, g) := uniform (1 / 2) 3 g
  let (mult, g) := multDraw model g
  (⟨provider, model, input_tokens, output_tokens, round2 (base_rt * mult), ts⟩, g)

/-- Run a record maker `n` times, threading the random source, collecting the
results in generation order. -/
def replicateRand {α : Type} (f : RandGen → α × RandGen) :
    Nat → RandGen → List α × RandGen
  | 0, g => ([], g)
  | n + 1, g =>
    let (a, g') := f g
    let (rest, g'') := replicateRand f n g'
    (a :: rest, g'')

/-- The daily loop of `generate_sample_data`: for each of the `fuel`
remaining days starting at index `dayIdx`, draw `daily_calls ∈ [5, 50]` and
generate that many records. -/
def daysFrom (now : ℤ) (dayIdx : Nat) : Nat → RandGen → List Record × RandGen
  | 0, g => ([], g)
  | fuel + 1, g =>
    let (daily_calls, g) := randint 5 50 g
    let (recs, g) := replicateRand (mkBaseRecord (dayStart now dayIdx)) daily_calls g
    let (rest, g') := daysFrom now (dayIdx + 1) fuel g
    (recs ++ rest, g')

/-- `generate_sample_data` up to the point where `sample_df` is built: the
base dataset, 30 days counting back from `now`. -/
def generate_sample_data (now : ℤ) (g : RandGen) : List Record × RandGen :=
  daysFrom now 0 30 g

/-- One draw of `DataFrame.sample` with replacement: an arbitrary row index. -/
def sampleOne (base : List Record) (g : RandGen) : Record × RandGen :=
  let (n, g') := rawDraw g
  (base.getD (n % base.length) defaultRecord, g')

/-- `sample_df.sample(frac=2, replace=True)`: `round(2 * N) = 2 * N` rows
drawn with replacement. -/
def heavy_usage (base : List Record) (g : RandGen) : List Record × RandGen :=
  replicateRand (sampleOne base) (2 * base.length) g

/-- The number of rows of `sample_df.sample(frac=0.3)`: `round(0.3 * N)`. -/
def lightSize (n : Nat) : Nat :=
  (pyRound (3 * (((n : ℕ) : ℤ) : ℚ) / 10)).toNat

/-- Draw `n` distinct indices from the pool, without replacement: each step
removes the chosen index from the pool. -/
def pickDistinct : List Nat → Nat → RandGen → List Nat × RandGen
  | _, 0, g => ([], g)
  | pool, n + 1, g =>
    let (k, g') := rawDraw g
    let i := pool.getD (k % pool.length) 0
    let (rest, g'') := pickDistinct (pool.erase i) n g'
    (i :: rest, g'')

/-- `sample_df.sample(frac=0.3)`: `round(0.3 * N)` rows drawn without
replacement (distinct row indices). -/
def light_usage (base : List Record) (g : RandGen) : List Record × RandGen :=
  let (idxs, g') := pickDistinct (List.range base.length) (lightSize base.length) g
  (idxs.map (fun i => base.getD i defaultRecord), g')

/-- `pd.date_range(now - 30 days, now, freq='3D')`: eleven window starts,
every 3 days across the trailing 30-day span, endpoints included. -/
def burst_times (now : ℤ) : List ℤ :=
  (List.range 11).map (fun k => now - 30 * daySecs + (k : ℤ) * (3 * daySecs))

/-- One burst record at window start `t`.  Draws, in program order: minute
offset in `[0, 120]`, provider from `['OpenAI', 'Anthropic']`, model from
`['gpt-4', 'claude-3-opus']` (independently of the provider), input tokens,
output tokens, response time. -/
def mkBurstRecord (t : ℤ) (g : RandGen) : Record × RandGen :=
  let (minutes, g) := randint 0 120 g
  let ts := t + (minutes : ℤ) * 60
  let (provider, g) := choice ["OpenAI", "Anthropic"] "" g
  let (model, g) := choice ["gpt-4", "claude-3-opus"] "" g
  let (input_tokens, g) := randint 500 3000 g
  let (output_tokens, g) := randint 200 1500 g
  let (u, g) := uniform 2 8 g
  (⟨provider, model, input_tokens, output_tokens, round2 u, ts⟩, g)

/-- The burst-window loop: for each window start, draw a count in `[50, 100]`
and generate that many burst records. -/
def burstWindows : List ℤ → RandGen → List Record × RandGen
  | [], g => ([], g)
  | t :: ts, g =>
    let (count, g) := randint 50 100 g
    let (recs, g) := replicateRand (mkBurstRecord t) count g
    let (rest, g') := burstWindows ts g
    (recs ++ rest, g')

/-- `generate_burst_pattern(base_df)`: the base rows (a copy, unmodified)
followed by the burst records in window-generation order. -/
def generate_burst_pattern (base : List Record) (now : ℤ) (g : RandGen) :
    List Record × RandGen :=
  let (extra, g') := burstWindows (burst_times now) g
  (base ++ extra, g')

/-- One expensive-tier record of `generate_cost_focused_data`.  Draws, in
program order: day offset in `[1, 30]`, hour offset in `[0, 23]`, minute
offset in `[0, 59]`, input tokens, output tokens, response time; the
provider/model pair is fixed to OpenAI / gpt-4. -/
def mkExpensiveRecord (now : ℤ) (g : RandGen) : Record × RandGen :=
  let (d, g) := randint 1 30 g
  let (h, g) := randint 0 23 g
  let (m, g) := randint 0 59 g
  let ts := now - ((d : ℤ) * daySecs + (h : ℤ) * 3600 + (m : ℤ) * 60)
  let (input_tokens, g) := randint 1000 4000 g
  let (output_tokens, g) := randint 500 2000 g
  let (u, g) := uniform 3 10 g
  (⟨"OpenAI", "gpt-4", input_tokens, output_tokens, round2 u, ts⟩, g)

/-- One cheap-tier record of `generate_cost_focused_data`.  The provider is
drawn from `['Google', 'Cohere']` and the model from
`['gemini-pro', 'command-light']`, independently of the provider. -/
def mkCheapRecord (now : ℤ) (g : RandGen) : Record × RandGen :=
  let (d, g) := randint 1 30 g
  let (h, g) := randint 0 23 g
  let (m, g) := randint 0 59 g
  let ts := now - ((d : ℤ) * daySecs + (h : ℤ) * 3600 + (m : ℤ) * 60)
  let (provider, g) := choice ["Google", "Cohere"] "" g
  let (model, g) := choice ["gemini-pro", "command-light"] "" g
  let (input_tokens, g) := randint 100 800 g
  let (output_tokens, g) := randint 50 300 g
  let (u, g) := uniform (1 / 2) 2 g
  (⟨provider, model, input_tokens, output_tokens, round2 u, ts⟩, g)

/-- `generate_cost_focused_data(base_df, providers_data)`: the base rows (a
copy, unmodified), then 200 expensive-tier records, then 300 cheap-tier
records. -/
def generate_cost_focused_data (base : List Record) (now : ℤ) (g : RandGen) :
    List Record × RandGen :=
  let p1 := replicateRand (mkExpensiveRecord now) 200 g
  let p2 := replicateRand (mkCheapRecord now) 300 p1.2
  (base ++ p1.1 ++ p2.1, p2.2)

/-- The five datasets of one run of `generate_sample_data`, in the order the
program generates them (the scenario dict evaluates heavy, light, burst,
cost-focused in that order, all reading the one global random stream). -/
structure PipelineOut where
  base : List Record
  heavy : List Record
  light : List Record
  burst : List Record
  cost : List Record
deriving DecidableEq

/-- One full run of `generate_sample_data` on clock `now` and random
stream `g`. -/
def runPipeline (now : ℤ) (g : RandGen) : PipelineOut :=
  let p1 := generate_sample_data now g
  let p2 := heavy_usage p1.1 p1.2
  let p3 := light_usage p1.1 p2.2
  let p4 := generate_burst_pattern p1.1 now p3.2
  let p5 := generate_cost_focused_data p1.1 now p4.2
  ⟨p1.1, p2.1, p3.1, p4.1, p5.1⟩

/-- The CSV serialization of one record, one row of `DataFrame.to_csv`. -/
def recordCSV (r : Record) : String :=
  r.provider_name ++ "," ++ r.model_name ++ "," ++ toString r.input_tokens ++
    "," ++ toString r.output_tokens ++ "," ++ toString r.response_time ++
    "," ++ toString r.timestamp

/-- `DataFrame.to_csv(path, index=False)`: one header row, then one row per
record. -/
def datasetCSV (rs : List Record) : String :=
  String.intercalate "\x0a"
    ("provider_name,model_name,input_tokens,output_tokens,response_time,timestamp"
      :: rs.map recordCSV)

/-- The five output files of one run, as (file name, byte content) pairs. -/
def outputFiles (now : ℤ) (g : RandGen) : List (String × String) :=
  let out := runPipeline now g
  [("sample_data.csv", datasetCSV out.base),
   ("heavy_usage_sample.csv", datasetCSV out.heavy),
   ("light_usage_sample.csv", datasetCSV out.light),
   ("burst_usage_sample.csv", datasetCSV out.burst),
   ("cost_focused_sample.csv", datasetCSV out.cost)]

/-- All records of all five datasets of one run. -/
def allRecords (out : PipelineOut) : List Record :=
  out.base ++ out.heavy ++ out.light ++ out.burst ++ out.cost

/-- Token bounds of a base record: `input_tokens ∈ [50, 2000]`,
`output_tokens ∈ [20, 800]`. -/
def baseTokensOK (r : Record) : Bool :=
  decide (50 ≤ r.input_tokens ∧ r.input_tokens ≤ 2000 ∧
    20 ≤ r.output_tokens ∧ r.output_tokens ≤ 800)

/-- Token bounds of a burst record: `input_tokens ∈ [500, 3000]`,
`output_tokens ∈ [200, 1500]`. -/
def burstTokensOK (r : Record) : Bool :=
  decide (500 ≤ r.input_tokens ∧ r.input_tokens ≤ 3000 ∧
    200 ≤ r.output_tokens ∧ r.output_tokens ≤ 1500)

/-- `response_time` is positive and quantized to two decimal places
(`response_time * 100` is an integer, i.e. has denominator 1). -/
def rtOK (r : Record) : Bool :=
  decide (0 < r.response_time) && ((r.response_time * 100).den == 1)

/-- The record's pair is one of the two designated heavy pairs,
OpenAI / gpt-4 or Anthropic / claude-3-opus. -/
def designatedPair (r : Record) : Bool :=
  (r.provider_name == "OpenAI" && r.model_name == "gpt-4") ||
    (r.provider_name == "Anthropic" && r.model_name == "claude-3-opus")

/-- What the burst generator actually guarantees: provider among
OpenAI / Anthropic and model among gpt-4 / claude-3-opus, drawn
independently. -/
def burstPairPossible (r : Record) : Bool :=
  (r.provider_name == "OpenAI" || r.provider_name == "Anthropic") &&
    (r.model_name == "gpt-4" || r.model_name == "claude-3-opus")

/-- The expensive-tier pair of the cost-focused generator. -/
def expensivePairOK (r : Record) : Bool :=
  r.provider_name == "OpenAI" && r.model_name == "gpt-4"

/-- What the cheap-tier part of the cost-focused generator actually
guarantees: provider among Google / Cohere and model among
gemini-pro / command-light, drawn independently. -/
def cheapPairPossible (r : Record) : Bool :=
  (r.provider_name == "Google" || r.provider_name == "Cohere") &&
    (r.model_name == "gemini-pro" || r.model_name == "command-light")

/-- The record's timestamp lies in the trailing `d`-day window ending at
`now`. -/
def withinTrailingDays (d : ℕ) (now : ℤ) (r : Record) : Bool :=
  decide (now - (d : ℤ) * daySecs ≤ r.timestamp ∧ r.timestamp ≤ now)

/-!  ### Lemmas about the primitive draws and rounding  -/

theorem unitFrac_nonneg (k : Nat) : 0 ≤ unitFrac k := by
  unfold unitFrac
  positivity

theorem unitFrac_le_one (k : Nat) : unitFrac k ≤ 1 := by
  unfold unitFrac
  rw [div_le_one (by positivity)]
  have h : (k % 2 ^ 53 : ℕ) ≤ 2 ^ 53 := le_of_lt (Nat.mod_lt _ (by positivity))
  exact_mod_cast h

theorem uniform_fst_bounds (a b : ℚ) (h : a ≤ b) (g : RandGen) :
    a ≤ (uniform a b g).1 ∧ (uniform a b g).1 ≤ b := by
  have h0 := unitFrac_nonneg (g.seq g.idx)
  have h1 := unitFrac_le_one (g.seq g.idx)
  simp only [uniform, randomUnit, rawDraw]
  constructor <;> nlinarith

theorem multDraw_bounds (model : String) (g : RandGen) :
    (4 : ℚ) / 5 ≤ (multDraw model g).1 ∧ (multDraw model g).1 ≤ 5 / 2 := by
  unfold multDraw
  split
  · have hb := uniform_fst_bounds ((3:ℚ)/2) ((5:ℚ)/2) (by norm_num) g
    constructor <;> linarith [hb.1, hb.2]
  · have hb := uniform_fst_bounds ((4:ℚ)/5) ((6:ℚ)/5) (by norm_num) g
    constructor <;> linarith [hb.1, hb.2]

theorem randint_fst_bounds (a b : ℕ) (h : a ≤ b) (g : RandGen) :
    a ≤ (randint a b g).1 ∧ (randint a b g).1 ≤ b := by
  simp only [randint, rawDraw]
  have hm : g.seq g.idx % (b + 1 - a) < b + 1 - a := Nat.mod_lt _ (by omega)
  omega

theorem choice_fst_mem {α : Type} (xs : List α) (d : α) (g : RandGen)
    (h : xs ≠ []) : (choice xs d g).1 ∈ xs := by
  simp only [choice, rawDraw]
  have hl : 0 < xs.length := List.length_pos.2 h
  have hm : g.seq g.idx % xs.length < xs.length := Nat.mod_lt _ hl
  rw [List.getD_eq_getElem xs d hm]
  exact List.getElem_mem hm

theorem ratFloor_eq (q : ℚ) : Rat.floor q = ⌊q⌋ :=
  (Rat.floor_def' q).trans Rat.floor_def.symm

theorem floor_le_pyRound (q : ℚ) : ⌊q⌋ ≤ pyRound q := by
  unfold pyRound
  rw [ratFloor_eq]
  split
  · exact le_refl _
  · split
    · omega
    · split <;> omega

theorem pyRound_le_ceil (q : ℚ) : pyRound q ≤ ⌈q⌉ := by
  unfold pyRound
  rw [ratFloor_eq]
  split
  · exact Int.floor_le_ceil q
  · rename_i h1
    have hlt : (⌊q⌋ : ℚ) < q := by
      push_neg at h1
      nlinarith [h1]
    have hc : ⌊q⌋ + 1 ≤ ⌈q⌉ := Int.add_one_le_ceil_iff.2 hlt
    split
    · exact hc
    · split <;> omega

theorem le_pyRound {m : ℤ} {q : ℚ} (h : (m : ℚ) ≤ q) : m ≤ pyRound q :=
  le_trans (Int.le_floor.2 h) (floor_le_pyRound q)

theorem round2_pos {q : ℚ} (h : (2 : ℚ) / 5 ≤ q) : 0 < round2 q := by
  unfold round2
  have h40 : (40 : ℤ) ≤ pyRound (q * 100) := le_pyRound (by push_cast; nlinarith)
  have : (0 : ℚ) < ((pyRound (q * 100) : ℤ) : ℚ) := by exact_mod_cast lt_of_lt_of_le (by norm_num) h40
  positivity

theorem round2_den (q : ℚ) : (round2 q * 100).den = 1 := by
  unfold round2
  rw [div_mul_cancel₀ _ (by norm_num : (100 : ℚ) ≠ 0)]
  exact Rat.den_intCast _

/-!  ### Lemmas about the generation loops  -/

theorem replicateRand_length {α : Type} (f : RandGen → α × RandGen)
    (n : Nat) (g : RandGen) : ((replicateRand f n g).1).length = n := by
  induction n generalizing g with
  | zero => rfl
  | succ n ih =>
    rcases hfg : f g with ⟨a, g'⟩
    rcases hr : replicateRand f n g' with ⟨rest, g''⟩
    have hl : rest.length = n := by
      have := ih g'
      rw [hr] at this
      exact this
    simp only [replicateRand, hfg, hr, List.length_cons]
    omega

theorem replicateRand_all {α : Type} (f : RandGen → α × RandGen)
    (p : α → Bool) (h : ∀ g, p (f g).1 = true) (n : Nat) (g : RandGen) :
    ((replicateRand f n g).1).all p = true := by
  induction n generalizing g with
  | zero => rfl
  | succ n ih =>
    rcases hfg : f g with ⟨a, g'⟩
    rcases hr : replicateRand f n g' with ⟨rest, g''⟩
    have ha := h g
    rw [hfg] at ha
    have hrest := ih g'
    rw [hr] at hrest
    simp only [replicateRand, hfg, hr, List.all_cons, ha, hrest, Bool.and_self]

theorem daysFrom_all (now : ℤ) (p : Record → Bool)
    (h : ∀ (d : Nat) (g : RandGen), p (mkBaseRecord (dayStart now d) g).1 = true)
    (n d : Nat) (g : RandGen) : ((daysFrom now d n g).1).all p = true := by
  induction n generalizing d g with
  | zero => rfl
  | succ n ih =>
    rcases hc : randint 5 50 g with ⟨daily_calls, g1⟩
    rcases hrec : replicateRand (mkBaseRecord (dayStart now d)) daily_calls g1 with ⟨recs, g2⟩
    rcases hrest : daysFrom now (d + 1) n g2 with ⟨rest, g3⟩
    have h1 := replicateRand_all (mkBaseRecord (dayStart now d)) p (h d) daily_calls g1
    rw [hrec] at h1
    have h2 := ih (d + 1) g2
    rw [hrest] at h2
    simp only [daysFrom, hc, hrec, hrest, List.all_append, h1, h2, Bool.and_self]

theorem daysFrom_counts (now : ℤ) (n d : Nat) (g : RandGen) :
    ∃ counts : List Nat, counts.length = n ∧
      counts.all (fun c => decide (5 ≤ c ∧ c ≤ 50)) = true ∧
      ((daysFrom now d n g).1).length = counts.sum := by
  induction n generalizing d g with
  | zero => exact ⟨[], rfl, rfl, rfl⟩
  | succ n ih =>
    rcases hc : randint 5 50 g with ⟨daily_calls, g1⟩
    rcases hrec : replicateRand (mkBaseRecord (dayStart now d)) daily_calls g1 with ⟨recs, g2⟩
    rcases hrest : daysFrom now (d + 1) n g2 with ⟨rest, g3⟩
    obtain ⟨counts, hlen, hall, hsum⟩ := ih (d + 1) g2
    have hsum2 : rest.length = counts.sum := by
      rw [hrest] at hsum
      exact hsum
    have hb : 5 ≤ daily_calls ∧ daily_calls ≤ 50 := by
      have := randint_fst_bounds 5 50 (by norm_num) g
      rw [hc] at this
      exact this
    refine ⟨daily_calls :: counts, by simp [hlen], ?_, ?_⟩
    · simp only [List.all_cons, hall, Bool.and_true, decide_eq_true_eq]
      exact hb
    · have hrl : recs.length = daily_calls := by
        have := replicateRand_length (mkBaseRecord (dayStart now d)) daily_calls g1
        rw [hrec] at this
        exact this
      simp only [daysFrom, hc, hrec, hrest, List.length_append, List.sum_cons]
      omega

theorem burstWindows_all (p : Record → Bool)
    (h : ∀ (t : ℤ) (g : RandGen), p (mkBurstRecord t g).1 = true)
    (ts : List ℤ) (g : RandGen) : ((burstWindows ts g).1).all p = true := by
  induction ts generalizing g with
  | nil => rfl
  | cons t ts ih =>
    rcases hc : randint 50 100 g with ⟨count, g1⟩
    rcases hrec : replicateRand (mkBurstRecord t) count g1 with ⟨recs, g2⟩
    rcases hrest : burstWindows ts g2 with ⟨rest, g3⟩
    have h1 := replicateRand_all (mkBurstRecord t) p (h t) count g1
    rw [hrec] at h1
    have h2 := ih g2
    rw [hrest] at h2
    simp only [burstWindows, hc, hrec, hrest, List.all_append, h1, h2, Bool.and_self]

theorem burstWindows_counts (ts : List ℤ) (g : RandGen) :
    ∃ counts : List Nat, counts.length = ts.length ∧
      counts.all (fun c => decide (50 ≤ c ∧ c ≤ 100)) = true ∧
      ((burstWindows ts g).1).length = counts.sum := by
  induction ts generalizing g with
  | nil => exact ⟨[], rfl, rfl, rfl⟩
  | cons t ts ih =>
    rcases hc : randint 50 100 g with ⟨count, g1⟩
    rcases hrec : replicateRand (mkBurstRecord t) count g1 with ⟨recs, g2⟩
    rcases hrest : burstWindows ts g2 with ⟨rest, g3⟩
    obtain ⟨counts, hlen, hall, hsum⟩ := ih g2
    have hsum2 : rest.length = counts.sum := by
      rw [hrest] at hsum
      exact hsum
    have hb : 50 ≤ count ∧ count ≤ 100 := by
      have := randint_fst_bounds 50 100 (by norm_num) g
      rw [hc] at this
      exact this
    refine ⟨count :: counts, by simp [hlen], ?_, ?_⟩
    · simp only [List.all_cons, hall, Bool.and_true, decide_eq_true_eq]
      exact hb
    · have hrl : recs.length = count := by
        have := replicateRand_length (mkBurstRecord t) count g1
        rw [hrec] at this
        exact this
      simp only [burstWindows, hc, hrec, hrest, List.length_append, List.sum_cons]
      omega

theorem pickDistinct_length (pool : List Nat) (n : Nat) (g : RandGen) :
    ((pickDistinct pool n g).1).length = n := by
  induction n generalizing pool g with
  | zero => rfl
  | succ n ih =>
    rcases hr : pickDistinct (pool.erase (pool.getD (g.seq g.idx % pool.length) 0)) n
        ⟨g.seq, g.idx + 1⟩ with ⟨rest, g''⟩
    have hl : rest.length = n := by
      have := ih (pool.erase (pool.getD (g.seq g.idx % pool.length) 0)) ⟨g.seq, g.idx + 1⟩
      rw [hr] at this
      exact this
    simp only [pickDistinct, rawDraw, hr, List.length_cons]
    omega

theorem pickDistinct_subset (pool : List Nat) (n : Nat) (g : RandGen)
    (h : n ≤ pool.length) : ∀ i ∈ (pickDistinct pool n g).1, i ∈ pool := by
  induction n generalizing pool g with
  | zero => intro i hi; simp [pickDistinct] at hi
  | succ n ih =>
    have hpos : 0 < pool.length := by omega
    have hlt : g.seq g.idx % pool.length < pool.length := Nat.mod_lt _ hpos
    have hmem : pool.getD (g.seq g.idx % pool.length) 0 ∈ pool := by
      rw [List.getD_eq_getElem pool 0 hlt]
      exact List.getElem_mem hlt
    have herase : (pool.erase (pool.getD (g.seq g.idx % pool.length) 0)).length
        = pool.length - 1 := List.length_erase_of_mem hmem
    rcases hr : pickDistinct (pool.erase (pool.getD (g.seq g.idx % pool.length) 0)) n
        ⟨g.seq, g.idx + 1⟩ with ⟨rest, g''⟩
    intro i hi
    simp only [pickDistinct, rawDraw, hr, List.mem_cons] at hi
    rcases hi with rfl | hi
    · exact hmem
    · have := ih (pool.erase (pool.getD (g.seq g.idx % pool.length) 0))
        ⟨g.seq, g.idx + 1⟩ (by omega)
      rw [hr] at this
      exact List.erase_subset _ _ (this i hi)

theorem pickDistinct_nodup (pool : List Nat) (n : Nat) (g : RandGen)
    (h : n ≤ pool.length) (hnd : pool.Nodup) : ((pickDistinct pool n g).1).Nodup := by
  induction n generalizing pool g with
  | zero => simp [pickDistinct]
  | succ n ih =>
    have hpos : 0 < pool.length := by omega
    have hlt : g.seq g.idx % pool.length < pool.length := Nat.mod_lt _ hpos
    have hmem : pool.getD (g.seq g.idx % pool.length) 0 ∈ pool := by
      rw [List.getD_eq_getElem pool 0 hlt]
      exact List.getElem_mem hlt
    have herase : (pool.erase (pool.getD (g.seq g.idx % pool.length) 0)).length
        = pool.length - 1 := List.length_erase_of_mem hmem
    rcases hr : pickDistinct (pool.erase (pool.getD (g.seq g.idx % pool.length) 0)) n
        ⟨g.seq, g.idx + 1⟩ with ⟨rest, g''⟩
    have hsub := pickDistinct_subset (pool.erase (pool.getD (g.seq g.idx % pool.length) 0))
      n ⟨g.seq, g.idx + 1⟩ (by omega)
    rw [hr] at hsub
    have hrest := ih (pool.erase (pool.getD (g.seq g.idx % pool.length) 0))
      ⟨g.seq, g.idx + 1⟩ (by omega) (hnd.erase _)
    rw [hr] at hrest
    simp only [pickDistinct, rawDraw, hr, List.nodup_cons]
    refine ⟨fun hcon => ?_, hrest⟩
    exact hnd.not_mem_erase (hsub _ hcon)

/-!  ### Per-record properties of the four record makers  -/

theorem mkBaseRecord_tokens (ds : ℤ) (g : RandGen) :
    baseTokensOK (mkBaseRecord ds g).1 = true := by
  simp only [mkBaseRecord, choicesHour, randint, choice, uniform, randomUnit,
    rawDraw, multDraw, baseTokensOK]
  rw [decide_eq_true_eq]
  refine ⟨by omega, by omega, by omega, by omega⟩

theorem mkBaseRecord_rt (ds : ℤ) (g : RandGen) :
    rtOK (mkBaseRecord ds g).1 = true := by
  rcases h1 : choicesHour g with ⟨hour, g1⟩
  rcases h2 : randint 0 59 g1 with ⟨minute, g2⟩
  rcases h3 : randint 0 59 g2 with ⟨second, g3⟩
  rcases h4 : choice (providers_data.map (fun p => p.1)) "" g3 with ⟨provider, g4⟩
  rcases h5 : choice (providerModels provider) "" g4 with ⟨model, g5⟩
  rcases h6 : randint 50 2000 g5 with ⟨input_tokens, g6⟩
  rcases h7 : randint 20 800 g6 with ⟨output_tokens, g7⟩
  rcases h8 : uniform (1 / 2) 3 g7 with ⟨base_rt, g8⟩
  rcases h9 : multDraw model g8 with ⟨mult, g9⟩
  have hb : (1:ℚ)/2 ≤ base_rt ∧ base_rt ≤ 3 := by
    have := uniform_fst_bounds (1/2) 3 (by norm_num) g7
    rw [h8] at this
    exact this
  have hm : (4:ℚ)/5 ≤ mult ∧ mult ≤ 5/2 := by
    have := multDraw_bounds model g8
    rw [h9] at this
    exact this
  simp only [mkBaseRecord, h1, h2, h3, h4, h5, h6, h7, h8, h9, rtOK]
  simp only [Bool.and_eq_true, decide_eq_true_eq, beq_iff_eq]
  exact ⟨round2_pos (by nlinarith [hb.1, hb.2, hm.1, hm.2]), round2_den _⟩

theorem mkBurstRecord_tokens (t : ℤ) (g : RandGen) :
    burstTokensOK (mkBurstRecord t g).1 = true := by
  simp only [mkBurstRecord, randint, choice, uniform, randomUnit, rawDraw,
    burstTokensOK]
  rw [decide_eq_true_eq]
  refine ⟨by omega, by omega, by omega, by omega⟩

theorem mkBurstRecord_pair (t : ℤ) (g : RandGen) :
    burstPairPossible (mkBurstRecord t g).1 = true := by
  simp only [mkBurstRecord, randint, choice, uniform, randomUnit, rawDraw,
    burstPairPossible]
  rcases Nat.mod_two_eq_zero_or_one (g.seq (g.idx + 1)) with h1 | h1 <;>
    rcases Nat.mod_two_eq_zero_or_one (g.seq (g.idx + 2)) with h2 | h2 <;>
      simp [h1, h2]

theorem mkBurstRecord_rt (t : ℤ) (g : RandGen) :
    rtOK (mkBurstRecord t g).1 = true := by
  rcases h1 : randint 0 120 g with ⟨minutes, g1⟩
  rcases h2 : choice ["OpenAI", "Anthropic"] "" g1 with ⟨provider, g2⟩
  rcases h3 : choice ["gpt-4", "claude-3-opus"] "" g2 with ⟨model, g3⟩
  rcases h4 : randint 500 3000 g3 with ⟨input_tokens, g4⟩
  rcases h5 : randint 200 1500 g4 with ⟨output_tokens, g5⟩
  rcases h6 : uniform 2 8 g5 with ⟨u, g6⟩
  have hu : (2:ℚ) ≤ u ∧ u ≤ 8 := by
    have := uniform_fst_bounds 2 8 (by norm_num) g5
    rw [h6] at this
    exact this
  simp only [mkBurstRecord, h1, h2, h3, h4, h5, h6, rtOK]
  simp only [Bool.and_eq_true, decide_eq_true_eq, beq_iff_eq]
  exact ⟨round2_pos (by linarith [hu.1]), round2_den _⟩

theorem mkExpensiveRecord_pair (now : ℤ) (g : RandGen) :
    expensivePairOK (mkExpensiveRecord now g).1 = true := by
  simp only [mkExpensiveRecord, randint, uniform, randomUnit, rawDraw,
    expensivePairOK]
  simp

theorem mkExpensiveRecord_rt (now : ℤ) (g : RandGen) :
    rtOK (mkExpensiveRecord now g).1 = true := by
  rcases h1 : randint 1 30 g with ⟨d, g1⟩
  rcases h2 : randint 0 23 g1 with ⟨h, g2⟩
  rcases h3 : randint 0 59 g2 with ⟨m, g3⟩
  rcases h4 : randint 1000 4000 g3 with ⟨input_tokens, g4⟩
  rcases h5 : randint 500 2000 g4 with ⟨output_tokens, g5⟩
  rcases h6 : uniform 3 10 g5 with ⟨u, g6⟩
  have hu : (3:ℚ) ≤ u ∧ u ≤ 10 := by
    have := uniform_fst_bounds 3 10 (by norm_num) g5
    rw [h6] at this
    exact this
  simp only [mkExpensiveRecord, h1, h2, h3, h4, h5, h6, rtOK]
  simp only [Bool.and_eq_true, decide_eq_true_eq, beq_iff_eq]
  exact ⟨round2_pos (by linarith [hu.1]), round2_den _⟩

theorem mkExpensiveRecord_window (now : ℤ) (g : RandGen) :
    withinTrailingDays 31 now (mkExpensiveRecord now g).1 = true := by
  simp only [mkExpensiveRecord, randint, uniform, randomUnit, rawDraw,
    withinTrailingDays, daySecs]
  rw [decide_eq_true_eq]
  constructor <;> [skip; skip] <;> omega

theorem mkCheapRecord_pair (now : ℤ) (g : RandGen) :
    cheapPairPossible (mkCheapRecord now g).1 = true := by
  simp only [mkCheapRecord, randint, choice, uniform, randomUnit, rawDraw,
    cheapPairPossible]
  rcases Nat.mod_two_eq_zero_or_one (g.seq (g.idx + 3)) with h1 | h1 <;>
    rcases Nat.mod_two_eq_zero_or_one (g.seq (g.idx + 4)) with h2 | h2 <;>
      simp [h1, h2]

theorem mkCheapRecord_rt (now : ℤ) (g : RandGen) :
    rtOK (mkCheapRecord now g).1 = true := by
  rcases h1 : randint 1 30 g with ⟨d, g1⟩
  rcases h2 : randint 0 23 g1 with ⟨h, g2⟩
  rcases h3 : randint 0 59 g2 with ⟨m, g3⟩
  rcases h4 : choice ["Google", "Cohere"] "" g3 with ⟨provider, g4⟩
  rcases h5 : choice ["gemini-pro", "command-light"] "" g4 with ⟨model, g5⟩
  rcases h6 : randint 100 800 g5 with ⟨input_tokens, g6⟩
  rcases h7 : randint 50 300 g6 with ⟨output_tokens, g7⟩
  rcases h8 : uniform (1 / 2) 2 g7 with ⟨u, g8⟩
  have hu : (1:ℚ)/2 ≤ u ∧ u ≤ 2 := by
    have := uniform_fst_bounds (1/2) 2 (by norm_num) g7
    rw [h8] at this
    exact this
  simp only [mkCheapRecord, h1, h2, h3, h4, h5, h6, h7, h8, rtOK]
  simp only [Bool.and_eq_true, decide_eq_true_eq, beq_iff_eq]
  exact ⟨round2_pos (by linarith [hu.1]), round2_den _⟩

theorem mkCheapRecord_window (now : ℤ) (g : RandGen) :
    withinTrailingDays 31 now (mkCheapRecord now g).1 = true := by
  simp only [mkCheapRecord, randint, choice, uniform, randomUnit, rawDraw,
    withinTrailingDays, daySecs]
  rw [decide_eq_true_eq]
  constructor <;> omega

theorem sampleOne_mem (base : List Record) (h : base ≠ []) (g : RandGen) :
    decide ((sampleOne base g).1 ∈ base) = true := by
  rw [decide_eq_true_eq]
  simp only [sampleOne, rawDraw]
  have hl : 0 < base.length := List.length_pos.2 h
  have hm : g.seq g.idx % base.length < base.length := Nat.mod_lt _ hl
  rw [List.getD_eq_getElem base defaultRecord hm]
  exact List.getElem_mem hm

/-!  ### Dataset-level helper lemmas  -/

theorem counts_sum_bounds (counts : List Nat) (lo hi : Nat)
    (h : counts.all (fun c => decide (lo ≤ c ∧ c ≤ hi)) = true) :
    counts.length * lo ≤ counts.sum ∧ counts.sum ≤ counts.length * hi := by
  induction counts with
  | nil => simp
  | cons c cs ih =>
    simp only [List.all_cons, Bool.and_eq_true, decide_eq_true_eq] at h
    have := ih h.2
    simp only [List.sum_cons, List.length_cons]
    constructor <;> nlinarith [h.1.1, h.1.2, this.1, this.2]

theorem all_of_subset {α : Type} [DecidableEq α] (l L : List α) (p : α → Bool)
    (hsub : l.all (fun r => decide (r ∈ L)) = true) (hp : L.all p = true) :
    l.all p = true := by
  rw [List.all_eq_true] at hsub hp ⊢
  intro x hx
  have := hsub x hx
  rw [decide_eq_true_eq] at this
  exact hp x this

theorem lightSize_le (n : Nat) : lightSize n ≤ n := by
  unfold lightSize
  rw [Int.toNat_le]
  refine le_trans (pyRound_le_ceil _) ?_
  rw [Int.ceil_le]
  have h0 : (0:ℚ) ≤ ((n:ℤ):ℚ) := by positivity
  push_cast
  push_cast at h0
  linarith

theorem heavy_usage_length (base : List Record) (g : RandGen) :
    ((heavy_usage base g).1).length = 2 * base.length :=
  replicateRand_length (sampleOne base) (2 * base.length) g

theorem heavy_usage_mem (base : List Record) (g : RandGen) :
    ((heavy_usage base g).1).all (fun r => decide (r ∈ base)) = true := by
  by_cases h : base = []
  · subst h; rfl
  · exact replicateRand_all (sampleOne base) _ (fun g' => sampleOne_mem base h g')
      (2 * base.length) g

theorem light_usage_spec (base : List Record) (g : RandGen) :
    ∃ idxs : List Nat, idxs.Nodup ∧
      idxs.all (fun i => decide (i < base.length)) = true ∧
      idxs.length = lightSize base.length ∧
      (light_usage base g).1 = idxs.map (fun i => base.getD i defaultRecord) := by
  rcases hp : pickDistinct (List.range base.length) (lightSize base.length) g
    with ⟨idxs, g'⟩
  have hle : lightSize base.length ≤ (List.range base.length).length := by
    rw [List.length_range]
    exact lightSize_le _
  refine ⟨idxs, ?_, ?_, ?_, ?_⟩
  · have := pickDistinct_nodup (List.range base.length) (lightSize base.length) g hle
      (List.nodup_range _)
    rw [hp] at this
    exact this
  · rw [List.all_eq_true]
    intro i hi
    rw [decide_eq_true_eq]
    have hs := pickDistinct_subset (List.range base.length) (lightSize base.length) g hle
    rw [hp] at hs
    exact List.mem_range.1 (hs i hi)
  · have := pickDistinct_length (List.range base.length) (lightSize base.length) g
    rw [hp] at this
    exact this
  · simp only [light_usage, hp]

theorem light_usage_length (base : List Record) (g : RandGen) :
    ((light_usage base g).1).length = lightSize base.length := by
  obtain ⟨idxs, _, _, hlen, heq⟩ := light_usage_spec base g
  rw [heq, List.length_map, hlen]

theorem light_usage_mem (base : List Record) (g : RandGen) :
    ((light_usage base g).1).all (fun r => decide (r ∈ base)) = true := by
  obtain ⟨idxs, _, hidx, _, heq⟩ := light_usage_spec base g
  rw [heq, List.all_eq_true]
  intro x hx
  rw [List.mem_map] at hx
  obtain ⟨i, hi, rfl⟩ := hx
  rw [List.all_eq_true] at hidx
  have hilt := hidx i hi
  rw [decide_eq_true_eq] at hilt ⊢
  rw [List.getD_eq_getElem base defaultRecord hilt]
  exact List.getElem_mem hilt

theorem base_all_rt (now : ℤ) (g : RandGen) :
    ((generate_sample_data now g).1).all rtOK = true :=
  daysFrom_all now rtOK (fun d g' => mkBaseRecord_rt (dayStart now d) g') 30 0 g

theorem base_all_tokens (now : ℤ) (g : RandGen) :
    ((generate_sample_data now g).1).all baseTokensOK = true :=
  daysFrom_all now baseTokensOK (fun d g' => mkBaseRecord_tokens (dayStart now d) g') 30 0 g

theorem burst_times_length (now : ℤ) : (burst_times now).length = 11 := rfl

/-!  ### Additional closure lemmas used by the response-time claim  -/

theorem burst_all_rt (base : List Record) (now : ℤ) (g : RandGen)
    (hbase : base.all rtOK = true) :
    ((generate_burst_pattern base now g).1).all rtOK = true := by
  rcases hw : burstWindows (burst_times now) g with ⟨extra, g'⟩
  have hex : extra.all rtOK = true := by
    have := burstWindows_all rtOK mkBurstRecord_rt (burst_times now) g
    rw [hw] at this
    exact this
  simp only [generate_burst_pattern, hw, List.all_append, hbase, hex, Bool.and_self]

theorem cost_all_rt (base : List Record) (now : ℤ) (g : RandGen)
    (hbase : base.all rtOK = true) :
    ((generate_cost_focused_data base now g).1).all rtOK = true := by
  rcases he : replicateRand (mkExpensiveRecord now) 200 g with ⟨exp_recs, g1⟩
  rcases hc : replicateRand (mkCheapRecord now) 300 g1 with ⟨cheap_recs, g2⟩
  have hexp : exp_recs.all rtOK = true := by
    have := replicateRand_all (mkExpensiveRecord now) rtOK (mkExpensiveRecord_rt now) 200 g
    rw [he] at this
    exact this
  have hch : cheap_recs.all rtOK = true := by
    have := replicateRand_all (mkCheapRecord now) rtOK (mkCheapRecord_rt now) 300 g1
    rw [hc] at this
    exact this
  simp only [generate_cost_focused_data, he, hc, List.all_append, hbase, hexp, hch,
    Bool.and_self, List.append_assoc]

/-!  ### The claims  -/

set_option maxRecDepth 10000
set_option maxHeartbeats 2000000

/-- Stream exhibiting the catalog violation: all draws zero except the model
draw of the first appended burst record (stream position 1728 in this run). -/
def genCatalogBug : RandGen :=
  ⟨fun i => if i = 1728 then 1 else 0, 0⟩

/-- Stream exhibiting a non-designated burst provider/model pair: all draws
zero except the provider draw of the first appended burst record. -/
def genMixedPair : RandGen :=
  ⟨fun i => if i = 5036 then 0 else if i = 1727 then 1 else 0, 0⟩

/-- Stream exhibiting a cost-focused timestamp older than 30 days: the first
expensive record draws day offset 30 (position 0) and hour offset 1
(position 1). -/
def genStaleStamp : RandGen :=
  ⟨fun i => if i = 0 then 29 else if i = 1 then 1 else 0, 0⟩

/-- Stream exhibiting a cheap-tier cross pair: the 200 expensive records
consume 6 draws each, so the first cheap record's provider draw sits at
position 1203 (value 0, Google) and its model draw at 1204 (value 1,
command-light). -/
def genCheapCross : RandGen :=
  ⟨fun i => if i = 1204 then 1 else 0, 0⟩

/-- C1 (code bug): the catalog invariant — every record's `model_name` lies in
the model list of its `provider_name` — is violated by the code.  In the run
of `runPipeline` on clock 0 with stream `genCatalogBug`, the burst dataset's
record 150 (its first appended burst record; the base dataset of this run has
150 records) pairs provider OpenAI with model claude-3-opus, which is not in
OpenAI's model list: `generate_burst_pattern` draws the provider and the
model independently from two separate lists. -/
theorem c1_catalog_invariant_violated :
    ((runPipeline 0 genCatalogBug).burst.get? 150).map
      (fun r => (r.provider_name, r.model_name, catalogOK r)) =
      some ("OpenAI", "claude-3-opus", false) := by
  with_unfolding_all decide

/-- C2 (counterexample): not every appended burst record's provider/model
pair is one of the two designated heavy pairs.  In the run of `runPipeline`
on clock 0 with stream `genMixedPair`, the first appended burst record is the
pair (Anthropic, gpt-4). -/
theorem c2_designated_pair_counterexample :
    ((runPipeline 0 genMixedPair).burst.get? 150).map
      (fun r => (r.provider_name, r.model_name, designatedPair r)) =
      some ("Anthropic", "gpt-4", false) := by
  with_unfolding_all decide

/-- C2 (amended): the burst-augmented dataset is the base dataset followed by
the burst records of 11 windows (one every 3 days across the trailing 30
days), each window contributing between 50 and 100 records; each appended
record's provider is drawn from OpenAI/Anthropic and its model is drawn,
independently, from gpt-4/claude-3-opus. -/
theorem c2_burst_shape (base : List Record) (now : ℤ) (g : RandGen) :
    ∃ counts : List Nat, counts.length = 11 ∧
      counts.all (fun c => decide (50 ≤ c ∧ c ≤ 100)) = true ∧
      ((generate_burst_pattern base now g).1).length = base.length + counts.sum ∧
      ((generate_burst_pattern base now g).1).take base.length = base ∧
      (((generate_burst_pattern base now g).1).drop base.length).all
        burstPairPossible = true := by
  rcases hb : burstWindows (burst_times now) g with ⟨extra, g'⟩
  obtain ⟨counts, hlen, hall, hsum⟩ := burstWindows_counts (burst_times now) g
  have hsum2 : extra.length = counts.sum := by
    rw [hb] at hsum
    exact hsum
  have hpair : extra.all burstPairPossible = true := by
    have := burstWindows_all burstPairPossible mkBurstRecord_pair (burst_times now) g
    rw [hb] at this
    exact this
  refine ⟨counts, by rw [hlen, burst_times_length], hall, ?_, ?_, ?_⟩
  · simp only [generate_burst_pattern, hb, List.length_append]
    omega
  · simp only [generate_burst_pattern, hb]
    exact List.take_left base extra
  · simp only [generate_burst_pattern, hb, List.drop_left]
    exact hpair

/-- C3: the heavy-usage dataset has exactly `2 * N` records, all drawn from
the base dataset (with replacement, so duplicates are allowed); the
light-usage dataset has `round(0.3 * N)` records (`lightSize`), every one a
member of the base dataset, selected at pairwise-distinct row indices (drawn
without replacement). -/
theorem c3_heavy_light_resampling (base : List Record) (g g' : RandGen) :
    ((heavy_usage base g).1).length = 2 * base.length ∧
    ((heavy_usage base g).1).all (fun r => decide (r ∈ base)) = true ∧
    ((light_usage base g').1).length = lightSize base.length ∧
    ((light_usage base g').1).all (fun r => decide (r ∈ base)) = true ∧
    ∃ idxs : List Nat, idxs.Nodup ∧
      idxs.all (fun i => decide (i < base.length)) = true ∧
      (light_usage base g').1 = idxs.map (fun i => base.getD i defaultRecord) := by
  obtain ⟨idxs, hnd, hlt, _, heq⟩ := light_usage_spec base g'
  exact ⟨heavy_usage_length base g, heavy_usage_mem base g,
    light_usage_length base g', light_usage_mem base g', idxs, hnd, hlt, heq⟩

/-- C4: every base record has `input_tokens ∈ [50, 2000]` and
`output_tokens ∈ [20, 800]`; every appended burst record has
`input_tokens ∈ [500, 3000]` and `output_tokens ∈ [200, 1500]`. -/
theorem c4_token_bounds (base : List Record) (now : ℤ) (g g' : RandGen) :
    ((generate_sample_data now g).1).all baseTokensOK = true ∧
    (((generate_burst_pattern base now g').1).drop base.length).all
      burstTokensOK = true := by
  refine ⟨base_all_tokens now g, ?_⟩
  rcases hb : burstWindows (burst_times now) g' with ⟨extra, g''⟩
  have hex : extra.all burstTokensOK = true := by
    have := burstWindows_all burstTokensOK mkBurstRecord_tokens (burst_times now) g'
    rw [hb] at this
    exact this
  simp only [generate_burst_pattern, hb, List.drop_left]
  exact hex

/-- C5 (counterexample): the claim fails on the code in three conjuncts,
each exhibited here at a concrete input.  (1) Running
`generate_cost_focused_data` on clock 0 with stream `genStaleStamp`, the
first appended expensive record draws day offset 30 and hour offset 1, so
its timestamp is 30 days and 1 hour before the clock — outside the trailing
30-day window.  (2) That record, like all expensive-tier records, uses the
pair OpenAI / gpt-4, which is not "the single costliest provider/model
pair": by the catalog, Anthropic costs strictly more than OpenAI on both the
input and the output unit cost.  (3) The cheap tier is not drawn from "the
two cheapest providers' lightest models": with stream `genCheapCross` the
first cheap record is the cross pair (Google, command-light) — command-light
is not a Google model at all — and Google is not among the two cheapest
providers, since OpenAI's unit costs are strictly below Google's on both
components. -/
theorem c5_claim_counterexample :
    ((((generate_cost_focused_data [] 0 genStaleStamp).1).get? 0).map
      (fun r => (r.provider_name, r.model_name, r.timestamp, withinTrailingDays 30 0 r)) =
      some ("OpenAI", "gpt-4", -2595600, false)) ∧
    ((providerCosts "OpenAI").1 < (providerCosts "Anthropic").1 ∧
      (providerCosts "OpenAI").2 < (providerCosts "Anthropic").2) ∧
    ((providerCosts "OpenAI").1 < (providerCosts "Google").1 ∧
      (providerCosts "OpenAI").2 < (providerCosts "Google").2) ∧
    ((((generate_cost_focused_data [] 0 genCheapCross).1).get? 200).map
      (fun r => (r.provider_name, r.model_name, catalogOK r)) =
      some ("Google", "command-light", false)) := by
  refine ⟨by decide, ?_, ?_, by decide⟩ <;>
    constructor <;> with_unfolding_all decide

/-- C5 (amended): the cost-focused dataset is the base dataset followed by
exactly 500 appended records — first 200 expensive-tier records, all
OpenAI / gpt-4, then 300 cheap-tier records whose provider is drawn from
Google/Cohere and whose model is drawn, independently, from
gemini-pro/command-light — and every appended record's timestamp lies within
the trailing 31 days (the day offset is drawn from [1, 30] and the hour and
minute offsets are subtracted on top of it, so the offset can exceed 30
days but never 31). -/
theorem c5_cost_focused_shape (base : List Record) (now : ℤ) (g : RandGen) :
    ((generate_cost_focused_data base now g).1).length = base.length + 500 ∧
    ((generate_cost_focused_data base now g).1).take base.length = base ∧
    ((((generate_cost_focused_data base now g).1).drop base.length).take 200).all
      expensivePairOK = true ∧
    ((((generate_cost_focused_data base now g).1).drop base.length).take 200).length
      = 200 ∧
    ((((generate_cost_focused_data base now g).1).drop base.length).drop 200).all
      cheapPairPossible = true ∧
    ((((generate_cost_focused_data base now g).1).drop base.length).drop 200).length
      = 300 ∧
    (((generate_cost_focused_data base now g).1).drop base.length).all
      (withinTrailingDays 31 now) = true := by
  rcases he : replicateRand (mkExpensiveRecord now) 200 g with ⟨exp_recs, g1⟩
  rcases hch : replicateRand (mkCheapRecord now) 300 g1 with ⟨cheap_recs, g2⟩
  have hel : exp_recs.length = 200 := by
    have := replicateRand_length (mkExpensiveRecord now) 200 g
    rw [he] at this
    exact this
  have hcl : cheap_recs.length = 300 := by
    have := replicateRand_length (mkCheapRecord now) 300 g1
    rw [hch] at this
    exact this
  have hexp_pair : exp_recs.all expensivePairOK = true := by
    have := replicateRand_all (mkExpensiveRecord now) expensivePairOK
      (mkExpensiveRecord_pair now) 200 g
    rw [he] at this
    exact this
  have hcheap_pair : cheap_recs.all cheapPairPossible = true := by
    have := replicateRand_all (mkCheapRecord now) cheapPairPossible
      (mkCheapRecord_pair now) 300 g1
    rw [hch] at this
    exact this
  have hexp_win : exp_recs.all (withinTrailingDays 31 now) = true := by
    have := replicateRand_all (mkExpensiveRecord now) (withinTrailingDays 31 now)
      (mkExpensiveRecord_window now) 200 g
    rw [he] at this
    exact this
  have hcheap_win : cheap_recs.all (withinTrailingDays 31 now) = true := by
    have := replicateRand_all (mkCheapRecord now) (withinTrailingDays 31 now)
      (mkCheapRecord_window now) 300 g1
    rw [hch] at this
    exact this
  have hds : (generate_cost_focused_data base now g).1
      = base ++ (exp_recs ++ cheap_recs) := by
    simp only [generate_cost_focused_data, he, hch, List.append_assoc]
  rw [hds, List.drop_left, List.take_left]
  rw [← hel, List.take_left, List.drop_left]
  refine ⟨?_, rfl, hexp_pair, rfl, hcheap_pair, hcl, ?_⟩
  · simp only [List.length_append]
    omega
  · rw [List.all_append, hexp_win, hcheap_win]
    rfl

/-- C6: every record of every one of the five datasets of a run has a
positive `response_time` that is an exact multiple of 1/100 (the value of
Python's `round(x, 2)` on the exact rational `x`). -/
theorem c6_response_time (now : ℤ) (g : RandGen) :
    (allRecords (runPipeline now g)).all rtOK = true := by
  rcases hbase : generate_sample_data now g with ⟨base, g1⟩
  rcases hh : heavy_usage base g1 with ⟨heavy, g2⟩
  rcases hl : light_usage base g2 with ⟨light, g3⟩
  rcases hb : generate_burst_pattern base now g3 with ⟨burst, g4⟩
  rcases hc : generate_cost_focused_data base now g4 with ⟨cost, g5⟩
  have hbase_rt : base.all rtOK = true := by
    have := base_all_rt now g
    rw [hbase] at this
    exact this
  have hheavy : heavy.all rtOK = true := by
    have hmem := heavy_usage_mem base g1
    rw [hh] at hmem
    exact all_of_subset _ _ _ hmem hbase_rt
  have hlight : light.all rtOK = true := by
    have hmem := light_usage_mem base g2
    rw [hl] at hmem
    exact all_of_subset _ _ _ hmem hbase_rt
  have hburst : burst.all rtOK = true := by
    have := burst_all_rt base now g3 hbase_rt
    rw [hb] at this
    exact this
  have hcost : cost.all rtOK = true := by
    have := cost_all_rt base now g4 hbase_rt
    rw [hc] at this
    exact this
  simp only [runPipeline, hbase, hh, hl, hb, hc, allRecords, List.all_append,
    hbase_rt, hheavy, hlight, hburst, hcost, Bool.and_self]

/-- C7: the base dataset's length is the sum of 30 per-day call counts, each
in [5, 50], so it always has between 150 and 1500 records. -/
theorem c7_base_length (now : ℤ) (g : RandGen) :
    ∃ counts : List Nat, counts.length = 30 ∧
      counts.all (fun c => decide (5 ≤ c ∧ c ≤ 50)) = true ∧
      ((generate_sample_data now g).1).length = counts.sum ∧
      150 ≤ ((generate_sample_data now g).1).length ∧
      ((generate_sample_data now g).1).length ≤ 1500 := by
  obtain ⟨counts, hlen, hall, hsum⟩ := daysFrom_counts now 30 0 g
  have hb := counts_sum_bounds counts 5 50 hall
  rw [hlen] at hb
  have hsum' : ((generate_sample_data now g).1).length = counts.sum := hsum
  exact ⟨counts, hlen, hall, hsum', by omega, by omega⟩

/-- C8: on an empty base dataset the heavy- and light-usage derivations both
return the empty dataset (the former asks for `2 * 0` rows, the latter for
`round(0.3 * 0) = 0` rows); no error is possible, both functions are total. -/
theorem c8_empty_base (g g' : RandGen) :
    (heavy_usage [] g).1 = [] ∧ (light_usage [] g').1 = [] := by
  constructor
  · rfl
  · with_unfolding_all rfl

/-- C9: the generator is deterministic in the random stream and the clock:
two runs on equal streams and equal clocks produce byte-identical output
files (same file names, same CSV contents). -/
theorem c9_determinism (g1 g2 : RandGen) (now1 now2 : ℤ)
    (hg : g1 = g2) (hn : now1 = now2) :
    outputFiles now1 g1 = outputFiles now2 g2 := by
  rw [hg, hn]

/-- Witness for C9 at a concrete stream and clock. -/
theorem c9_determinism_witness :
    outputFiles 0 ⟨fun _ => 0, 0⟩ = outputFiles 0 ⟨fun _ => 0, 0⟩ :=
  c9_determinism ⟨fun _ => 0, 0⟩ ⟨fun _ => 0, 0⟩ 0 0 rfl rfl

/-- C10: the burst and cost-focused derivations leave the base dataset
unchanged (in the code both start from `base_df.copy()` and only concatenate;
in this pure embedding the input list is shared, not mutated) and return it
as the unmodified prefix of their output. -/
theorem c10_base_preserved (base : List Record) (now : ℤ) (g g' : RandGen) :
    ((generate_burst_pattern base now g).1).take base.length = base ∧
    ((generate_cost_focused_data base now g').1).take base.length = base := by
  constructor
  · rcases hw : burstWindows (burst_times now) g with ⟨extra, gx⟩
    simp only [generate_burst_pattern, hw]
    exact List.take_left base extra
  · rcases he : replicateRand (mkExpensiveRecord now) 200 g' with ⟨e, g1⟩
    rcases hc : replicateRand (mkCheapRecord now) 300 g1 with ⟨c, g2⟩
    simp only [generate_cost_focused_data, he, hc, List.append_assoc]
    exact List.take_left base _
